import Mathlib

/-!
# Shallow embedding of `pkg/filter/pipelinerun.go` (shipwright-io/triggers)

The Go package `filter` decides whether a Tekton `PipelineRun` event is worth
reconciling (`EventFilterPredicate`), classifies the run's status
(`ParsePipelineRunStatus`), translates the run into a `WhenObjectRef`
(`PipelineRunToObjectRef`) and scans a `BuildRun` for a Tekton `Run` owner
(`searchBuildRunForRunOwner`).  Logging is left out (it never influences a returned
value).  The label helpers of the package, which are not part of the files at hand, are
modelled from the specification and marked so.

Library code the package calls (Go `time`, `k8s.io/apimachinery`, `knative.dev/pkg/apis`,
`tektoncd/pipeline` v1beta1) is embedded next to it, each definition naming the library
function it follows.  Pointers that the functions test against `nil` are `Option`s.
-/

set_option autoImplicit false

/-! ## Go `time` -/

namespace time

/-- Go `time.Duration`: a signed count of nanoseconds, stored in an `int64`. -/
abbrev Duration := Int

/-- Largest `time.Duration` (`1<<63 - 1`). -/
def maxDuration : Duration := 9223372036854775807

/-- Smallest `time.Duration` (`-1 << 63`). -/
def minDuration : Duration := -9223372036854775808

/-- One second, `time.Second`. -/
def Second : Duration := 1000000000

/-- One minute, `time.Minute`. -/
def Minute : Duration := 60 * Second

/-- Two's complement wrap-around of an integer into the `int64` range, as Go integer
arithmetic on `Duration` does. -/
def int64 (x : Int) : Int := (x + 9223372036854775808) % 18446744073709551616 - 9223372036854775808

/-- Go `time.Time`, as the number of nanoseconds elapsed since the zero instant
(January 1, year 1, 00:00:00 UTC).  Monotonic clock readings are not modelled: the instants
compared here come from API objects and from the caller, and carry none. -/
structure Time where
  ns : Int := 0
deriving DecidableEq, Repr

/-- Go `Time.IsZero`: the zero instant. -/
def Time.IsZero (t : Time) : Bool := decide (t.ns = 0)

/-- Go `Time.Sub`: the duration `t - u`, saturated to the largest (smallest) `Duration`
when the difference does not fit. -/
def Time.Sub (t u : Time) : Duration :=
  if maxDuration < t.ns - u.ns then maxDuration
  else if t.ns - u.ns < minDuration then minDuration
  else t.ns - u.ns

end time

/-! ## `k8s.io/apimachinery` -/

namespace metav1

/-- Method `IsZero` of `*metav1.Time`: a nil pointer counts as zero. -/
def IsZero : Option time.Time → Bool
  | none => true
  | some t => t.IsZero

/-- Go `metav1.OwnerReference` (the fields read here). -/
structure OwnerReference where
  APIVersion : String := ""
  Kind : String := ""
  Name : String := ""
deriving DecidableEq, Repr

/-- The fields of `metav1.ObjectMeta` the package reads.  `Labels` is a Go map
(`none` is the nil map), as a list of key/value pairs. -/
structure ObjectMeta where
  Name : String := ""
  Namespace : String := ""
  Labels : Option (List (String × String)) := none
  DeletionTimestamp : Option time.Time := none
  OwnerReferences : List OwnerReference := []
deriving DecidableEq, Repr

end metav1

namespace types

/-- Go `types.NamespacedName`. -/
structure NamespacedName where
  Namespace : String := ""
  Name : String := ""
deriving DecidableEq, Repr

/-- Go `NamespacedName.String`: namespace and name joined by a slash. -/
def NamespacedName.String (n : NamespacedName) : String := n.Namespace ++ "/" ++ n.Name

end types

/-! ## `knative.dev/pkg/apis` -/

namespace apis

/-- Go `apis.Condition`; `Type` (here `Type_`, the plain name being reserved) and `Status`
are string types in Go, so any string can occur. -/
structure Condition where
  Type_ : String := ""
  Status : String := ""
  Reason : String := ""
  Message : String := ""
deriving DecidableEq, Repr

/-- Constant `apis.ConditionSucceeded`. -/
def ConditionSucceeded : String := "Succeeded"

/-- Constant `corev1.ConditionTrue`. -/
def ConditionTrue : String := "True"

/-- Constant `corev1.ConditionUnknown`. -/
def ConditionUnknown : String := "Unknown"

/-- Method `IsTrue` of `*apis.Condition`: false on nil. -/
def IsTrue : Option Condition → Bool
  | none => false
  | some c => decide (c.Status = ConditionTrue)

/-- Method `IsUnknown` of `*apis.Condition`: true on nil. -/
def IsUnknown : Option Condition → Bool
  | none => true
  | some c => decide (c.Status = ConditionUnknown)

/-- Condition manager lookup `GetCondition`: the first condition of the given type. -/
def GetCondition (t : String) : List Condition → Option Condition
  | [] => none
  | c :: rest => if c.Type_ = t then some c else GetCondition t rest

end apis

/-! ## `tektoncd/pipeline/pkg/apis/pipeline/v1beta1` -/

namespace tknv1beta1

/-- Go `TaskRef`. -/
structure TaskRef where
  Name : String := ""
  Kind : String := ""
  APIVersion : String := ""
deriving DecidableEq, Repr

/-- Go `PipelineTask` (the fields read here). -/
structure PipelineTask where
  Name : String := ""
  TaskRef : Option tknv1beta1.TaskRef := none
deriving DecidableEq, Repr

/-- Go `PipelineSpec` (the fields read here). -/
structure PipelineSpec where
  Description : String := ""
  Tasks : List PipelineTask := []
deriving DecidableEq, Repr

/-- Go `PipelineRef`. -/
structure PipelineRef where
  Name : String := ""
deriving DecidableEq, Repr

/-- Go `TimeoutFields` (the field read here). -/
structure TimeoutFields where
  Pipeline : Option time.Duration := none
deriving DecidableEq, Repr

/-- Go `PipelineRunSpec` (the fields read here).  `Status` is the string type
`PipelineRunSpecStatus`. -/
structure PipelineRunSpec where
  PipelineRef : Option tknv1beta1.PipelineRef := none
  Status : String := ""
  Timeouts : Option TimeoutFields := none
  Timeout : Option time.Duration := none
deriving DecidableEq, Repr

/-- Go `PipelineRunStatus` (the fields read here). -/
structure PipelineRunStatus where
  Conditions : List apis.Condition := []
  StartTime : Option time.Time := none
  PipelineSpec : Option tknv1beta1.PipelineSpec := none
deriving DecidableEq, Repr

/-- Go `PipelineRun`. -/
structure PipelineRun where
  ObjectMeta : metav1.ObjectMeta := {}
  Spec : PipelineRunSpec := {}
  Status : PipelineRunStatus := {}
deriving DecidableEq, Repr

/-- Constant `PipelineRunReasonStarted`. -/
def PipelineRunReasonStarted : String := "Started"

/-- Constant `PipelineRunReasonSuccessful`.  In the Tekton library its value is the string
`Succeeded`. -/
def PipelineRunReasonSuccessful : String := "Succeeded"

/-- Constant `PipelineRunReasonFailed`. -/
def PipelineRunReasonFailed : String := "Failed"

/-- Constant `PipelineRunReasonCancelled`. -/
def PipelineRunReasonCancelled : String := "Cancelled"

/-- Constant `PipelineRunSpecStatusCancelled`. -/
def PipelineRunSpecStatusCancelled : String := "Cancelled"

/-- Constant `config.NoTimeoutDuration`. -/
def NoTimeoutDuration : time.Duration := 0

/-- What `context.Context` contributes: the configured default timeout in minutes
(`config.FromContextOrDefaults(ctx).Defaults.DefaultTimeoutMinutes`, 60 unless configured). -/
structure Context where
  DefaultTimeoutMinutes : Int := 60
deriving DecidableEq, Repr

/-- Method `GetCondition` of `PipelineRunStatus`. -/
def PipelineRunStatus.GetCondition (s : PipelineRunStatus) (t : String) : Option apis.Condition :=
  apis.GetCondition t s.Conditions

/-- Method `GetNamespacedName` of `PipelineRun`. -/
def PipelineRun.GetNamespacedName (pr : PipelineRun) : types.NamespacedName :=
  { Namespace := pr.ObjectMeta.Namespace, Name := pr.ObjectMeta.Name }

/-- Method `IsDone`: the Succeeded condition is not unknown. -/
def PipelineRun.IsDone (pr : PipelineRun) : Bool :=
  !apis.IsUnknown (pr.Status.GetCondition apis.ConditionSucceeded)

/-- Method `HasStarted`: a start time is set and is not the zero instant. -/
def PipelineRun.HasStarted (pr : PipelineRun) : Bool :=
  match pr.Status.StartTime with
  | none => false
  | some t => !t.IsZero

/-- Method `IsCancelled`: the spec status is the cancelled value. -/
def PipelineRun.IsCancelled (pr : PipelineRun) : Bool :=
  decide (pr.Spec.Status = PipelineRunSpecStatusCancelled)

/-- Method `PipelineTimeout`: `Spec.Timeout`, else `Spec.Timeouts.Pipeline`, else the
configured default. -/
def PipelineRun.PipelineTimeout (pr : PipelineRun) (ctx : Context) : time.Duration :=
  match pr.Spec.Timeout with
  | some d => d
  | none =>
    match pr.Spec.Timeouts with
    | some ts =>
      match ts.Pipeline with
      | some d => d
      | none => time.int64 (time.int64 ctx.DefaultTimeoutMinutes * time.Minute)
    | none => time.int64 (time.int64 ctx.DefaultTimeoutMinutes * time.Minute)

/-- Method `HasTimedOut`, with the clock reading `now` (the package passes
`clock.NewFakePassiveClock(now)`, whose `Since(t)` is `now.Sub(t)`). -/
def PipelineRun.HasTimedOut (pr : PipelineRun) (ctx : Context) (now : time.Time) : Bool :=
  if !metav1.IsZero pr.Status.StartTime then
    if pr.PipelineTimeout ctx = NoTimeoutDuration then false
    else
      match pr.Status.StartTime with
      | none => false
      | some startTime => decide (pr.PipelineTimeout ctx < now.Sub startTime)
  else false

end tknv1beta1

/-! ## Package `filter` -/

namespace filter

open tknv1beta1

/-- Go `client.Object` as the package sees it: either a Tekton `PipelineRun` or an object
of some other kind, for which the type assertion fails. -/
inductive Object where
  | PipelineRun (pr : tknv1beta1.PipelineRun)
  | Other (objectMeta : metav1.ObjectMeta)
deriving DecidableEq, Repr

/-- The loop of `pipelineRunReferencesShipwright` over the declared tasks.
`ShipwrightAPIVersion` is the constant `constants.ShipwrightAPIVersion`. -/
def tasksReferenceShipwright (ShipwrightAPIVersion : String) : List PipelineTask → Bool
  | [] => false
  | task :: rest =>
    match task.TaskRef with
    | none => tasksReferenceShipwright ShipwrightAPIVersion rest
    | some ref =>
      if ref.APIVersion = ShipwrightAPIVersion then true
      else tasksReferenceShipwright ShipwrightAPIVersion rest

/-- Go `pipelineRunReferencesShipwright`. -/
def pipelineRunReferencesShipwright (ShipwrightAPIVersion : String) (pipelineRun : PipelineRun) :
    Bool :=
  match pipelineRun.Status.PipelineSpec with
  | none => false
  | some spec => tasksReferenceShipwright ShipwrightAPIVersion spec.Tasks

/-- Go `EventFilterPredicate` (log records left out). -/
def EventFilterPredicate (ShipwrightAPIVersion : String) (obj : Object) : Bool :=
  match obj with
  | .Other _ => false
  | .PipelineRun pipelineRun =>
    if !metav1.IsZero pipelineRun.ObjectMeta.DeletionTimestamp then false
    else if pipelineRun.Spec.PipelineRef.isNone then false
    else if pipelineRun.Status.PipelineSpec.isNone then false
    else if pipelineRunReferencesShipwright ShipwrightAPIVersion pipelineRun then false
    else true

/-- The message of the error `ParsePipelineRunStatus` builds with `fmt.Errorf`; `quote` is
the rendering of the verb `%q` (`strconv.Quote`), applied to the `String()` of the
namespaced name. -/
def parseErrorMessage (quote : String → String) (pipelineRun : PipelineRun) : String :=
  "unable to parse pipelinerun " ++ quote pipelineRun.GetNamespacedName.String ++
    " current status"

/-- Go `ParsePipelineRunStatus`: the status string and the error (`none` is nil, `some m`
an error with message `m`). -/
def ParsePipelineRunStatus (quote : String → String) (ctx : Context) (now : time.Time)
    (pipelineRun : PipelineRun) : String × Option String :=
  if pipelineRun.IsDone then
    if apis.IsTrue (pipelineRun.Status.GetCondition apis.ConditionSucceeded) then
      (PipelineRunReasonSuccessful, none)
    else (PipelineRunReasonFailed, none)
  else if pipelineRun.IsCancelled then (PipelineRunReasonCancelled, none)
  else if pipelineRun.HasTimedOut ctx now then ("TimedOut", none)
  else if pipelineRun.HasStarted then (PipelineRunReasonStarted, none)
  else ("", some (parseErrorMessage quote pipelineRun))

end filter

/-! ## Concrete values used to evaluate the definitions -/

namespace filter

open tknv1beta1

/-- What `strconv.Quote` does to a string of printable ASCII characters other than the
double quote and the backslash: it surrounds it with double quotes. -/
def quotePlain (s : String) : String := "\"" ++ s ++ "\""

/-- The stub `TektonPipelineRun(name)` of `test/stubs/tekton.go`, in namespace `default`. -/
def TektonPipelineRun (name : String) : PipelineRun :=
  { ObjectMeta := { Namespace := "default", Name := name },
    Spec := { PipelineRef := some { Name := name } },
    Status := {} }

/-- The stub `TektonPipelineRunSucceeded(name)`: `MarkSucceeded` records a Succeeded
condition with status `True`. -/
def TektonPipelineRunSucceeded (name : String) : PipelineRun :=
  { TektonPipelineRun name with
    Status :=
      { Conditions := [{ Type_ := "Succeeded", Status := "True", Reason := "Succeeded" }],
        PipelineSpec := some { Description := "testing" } } }

/-- The stub `TektonPipelineRunFailed(name)`: `MarkFailed` records a Succeeded condition
with status `False`. -/
def TektonPipelineRunFailed (name : String) : PipelineRun :=
  { TektonPipelineRun name with
    Status :=
      { Conditions := [{ Type_ := "Succeeded", Status := "False", Reason := "Failed" }],
        PipelineSpec := some { Description := "testing" } } }

/-- The stub `TektonPipelineRunCanceled(name)`. -/
def TektonPipelineRunCanceled (name : String) : PipelineRun :=
  { TektonPipelineRun name with
    Spec := { PipelineRef := some { Name := name }, Status := PipelineRunReasonCancelled },
    Status := { PipelineSpec := some { Description := "testing" } } }

/-- The stub `TektonPipelineRunRunning(name)`, started at `start`. -/
def TektonPipelineRunRunning (name : String) (start : time.Time) : PipelineRun :=
  { TektonPipelineRun name with
    Status := { StartTime := some start, PipelineSpec := some { Description := "testing" } } }

/-- The stub `TektonPipelineRunTimedOut(name)`: a timeout of one second and a start time
`start` (January 1, 1982 in the stub). -/
def TektonPipelineRunTimedOut (name : String) (start : time.Time) : PipelineRun :=
  { TektonPipelineRun name with
    Spec := { PipelineRef := some { Name := name }, Timeout := some time.Second },
    Status := { StartTime := some start, PipelineSpec := some { Description := "testing" } } }

/-- The stub `TektonPipelineTaskRefToShipwright`, for a given Shipwright API version. -/
def TektonPipelineTaskRefToShipwright (ShipwrightAPIVersion : String) : PipelineTask :=
  { Name := "shipwright",
    TaskRef := some { APIVersion := ShipwrightAPIVersion, Name := "name" } }

/-- A run like `TektonPipelineRun(name)` whose recorded pipeline spec lists a task without
`TaskRef` followed by the stub task `TektonPipelineTaskRefToShipwright`. -/
def TektonPipelineRunCustomTask (ShipwrightAPIVersion name : String) : PipelineRun :=
  { TektonPipelineRun name with
    Status :=
      { PipelineSpec := some
          ({ Tasks := [{ Name := "plain" },
                       TektonPipelineTaskRefToShipwright ShipwrightAPIVersion] }) } }

/-- The stub `TektonPipelineRunSucceeded(name)` with the spec status set to cancelled: a run
that is done and cancelled at once. -/
def TektonPipelineRunSucceededCanceled (name : String) : PipelineRun :=
  { TektonPipelineRunSucceeded name with
    Spec := { PipelineRef := some { Name := name }, Status := PipelineRunSpecStatusCancelled } }

/-- The stub `TektonPipelineRunFailed(name)` with a timeout of one second and a start time
`start`: a run that is done and, late enough, past its timeout. -/
def TektonPipelineRunFailedTimedOut (name : String) (start : time.Time) : PipelineRun :=
  { TektonPipelineRun name with
    Spec := { PipelineRef := some { Name := name }, Timeout := some time.Second },
    Status :=
      { Conditions := [{ Type_ := "Succeeded", Status := "False", Reason := "Failed" }],
        StartTime := some start,
        PipelineSpec := some { Description := "testing" } } }

/-- The stub `TektonPipelineRunCanceled(name)` with a timeout of one second and a start time
`start`: a cancelled run that is not done and, late enough, past its timeout. -/
def TektonPipelineRunCanceledTimedOut (name : String) (start : time.Time) : PipelineRun :=
  { TektonPipelineRunTimedOut name start with
    Spec :=
      { PipelineRef := some { Name := name }, Status := PipelineRunSpecStatusCancelled,
        Timeout := some time.Second } }

end filter

/-! ## Go strings and maps -/

namespace strings

/-- Go `strings.HasPrefix`: `s` begins with `p`. -/
def HasPrefix (s p : String) : Bool := p.data.isPrefixOf s.data

/-- Go `strings.Join`: the elements, with `sep` between neighbours. -/
def Join (elems : List String) (sep : String) : String := sep.intercalate elems

end strings

namespace gomap

/-- Go map read `m[k]` with the comma-ok form: the value stored under `k`, if any. -/
def get (m : List (String × String)) (k : String) : Option String :=
  match m with
  | [] => none
  | (k1, v) :: rest => if k1 = k then some v else get rest k

/-- Go builtin `delete(m, k)`: the map without the key `k`. -/
def delete (m : List (String × String)) (k : String) : List (String × String) :=
  m.filter (fun kv => decide (kv.1 ≠ k))

/-- Go map write `m[k] = v`. -/
def set (m : List (String × String)) (k v : String) : List (String × String) :=
  (k, v) :: delete m k

/-- The keys a `range` over the map visits. -/
def keys (m : List (String × String)) : List String := m.map Prod.fst

end gomap

/-! ## `github.com/shipwright-io/build/pkg/apis/build/v1alpha1` -/

namespace v1alpha1

/-- Go `v1alpha1.WhenObjectRef`. -/
structure WhenObjectRef where
  Name : String := ""
  Status : List String := []
  Selector : Option (List (String × String)) := none
deriving DecidableEq, Repr

/-- Go `v1alpha1.BuildRun` (the part read here). -/
structure BuildRun where
  ObjectMeta : metav1.ObjectMeta := {}
deriving DecidableEq, Repr

end v1alpha1

/-! ## Package `filter`: reserved keys, owner scan, translation -/

namespace filter

open tknv1beta1

/-- Go constant `Prefix`, used in all annotations. -/
def Prefix : String := "triggers.shipwright.io"

/-- Go `OwnedByTektonRun`, `fmt.Sprintf("%s/owned-by-run", Prefix)`. -/
def OwnedByTektonRun : String := Prefix ++ "/owned-by-run"

/-- Go `OwnedByTektonPipelineRun`, `fmt.Sprintf("%s/owned-by-pipelinerun", Prefix)`. -/
def OwnedByTektonPipelineRun : String := Prefix ++ "/owned-by-pipelinerun"

/-- Go `BuildRunsCreated`, `fmt.Sprintf("%s/buildrun-names", Prefix)`. -/
def BuildRunsCreated : String := Prefix ++ "/buildrun-names"

/-- Go `TektonPipelineRunName`, `fmt.Sprintf("%s/pipelinerun-name", Prefix)`. -/
def TektonPipelineRunName : String := Prefix ++ "/pipelinerun-name"

/-- Go `TektonPipelineRunTriggeredBuilds`,
`fmt.Sprintf("%s/pipelinerun-triggered-builds", Prefix)`. -/
def TektonPipelineRunTriggeredBuilds : String := Prefix ++ "/pipelinerun-triggered-builds"

/-- The loop of `searchBuildRunForRunOwner` over the owner references; `TektonAPIv1alpha1` is
the constant `constants.TektonAPIv1alpha1`, `ns` the result of `br.GetNamespace()`. -/
def searchOwnerReferences (TektonAPIv1alpha1 ns : String) :
    List metav1.OwnerReference → Option types.NamespacedName
  | [] => none
  | ownerRef :: rest =>
    if ownerRef.APIVersion = TektonAPIv1alpha1 ∧ ownerRef.Kind = "Run" then
      some { Namespace := ns, Name := ownerRef.Name }
    else searchOwnerReferences TektonAPIv1alpha1 ns rest

/-- Go `searchBuildRunForRunOwner`. -/
def searchBuildRunForRunOwner (TektonAPIv1alpha1 : String) (br : v1alpha1.BuildRun) :
    Option types.NamespacedName :=
  searchOwnerReferences TektonAPIv1alpha1 br.ObjectMeta.Namespace br.ObjectMeta.OwnerReferences

/-- Go `interface{}` as `filterBuildRunOwnedByRun` sees it: a `BuildRun`, or a value of
another type (here any `Object`), for which the type assertion fails. -/
inductive Interface where
  | BuildRun (br : v1alpha1.BuildRun)
  | NotBuildRun (obj : Object)
deriving DecidableEq, Repr

/-- Go `filterBuildRunOwnedByRun`. -/
def filterBuildRunOwnedByRun (TektonAPIv1alpha1 : String) (obj : Interface) : Bool :=
  match obj with
  | .NotBuildRun _ => false
  | .BuildRun br => (searchBuildRunForRunOwner TektonAPIv1alpha1 br).isSome

/-- Modelled from the spec: `PipelineRunGetLabels` is not among the source files.  It
returns the object's current label set, or an empty mapping if there is none, with
copy-on-read semantics: the mapping returned is the caller's own. -/
def PipelineRunGetLabels (pipelineRun : PipelineRun) : List (String × String) :=
  match pipelineRun.ObjectMeta.Labels with
  | none => []
  | some labels => labels

/-- Modelled from the spec: `AppendIssuedBuildRunsLabel` is not among the source files.  It
reads the existing value under `BuildRunsCreated` (empty if absent), puts the new identifiers
in front of it and writes back one comma-joined string, the old value kept verbatim as the
suffix; the label mapping is created if absent.  With no new identifier the object is left
unchanged.  The result is the object after the call. -/
def AppendIssuedBuildRunsLabel (pipelineRun : PipelineRun) (buildRunsIssued : List String) :
    PipelineRun :=
  if buildRunsIssued = [] then pipelineRun
  else
    let labels := PipelineRunGetLabels pipelineRun
    let label := (gomap.get labels BuildRunsCreated).getD ""
    let value :=
      if label = "" then strings.Join buildRunsIssued ","
      else strings.Join (buildRunsIssued ++ [label]) ","
    { pipelineRun with
      ObjectMeta :=
        { pipelineRun.ObjectMeta with Labels := some (gomap.set labels BuildRunsCreated value) } }

/-- The sanitizing loop of `PipelineRunToObjectRef`: for each key visited, delete it from
`labels` when it starts with `Prefix`. -/
def sanitizeLabels : List String → List (String × String) → List (String × String)
  | [], labels => labels
  | k :: rest, labels =>
    if strings.HasPrefix k Prefix then sanitizeLabels rest (gomap.delete labels k)
    else sanitizeLabels rest labels

/-- A Go run-time panic. -/
inductive Panic where
  | nilPointerDereference
deriving DecidableEq, Repr

/-- What a call of `PipelineRunToObjectRef` leaves behind when it returns: the object its
pointer argument refers to, as it is after the call, and the two results. -/
structure ObjectRefReturn where
  pipelineRun : PipelineRun
  objectRef : Option v1alpha1.WhenObjectRef
  err : Option String
deriving DecidableEq, Repr

/-- Go `PipelineRunToObjectRef`.  The loop works on the mapping `PipelineRunGetLabels`
hands out and the function assigns to no field of `pipelineRun`.  Reading
`pipelineRun.Spec.PipelineRef.Name` through a nil `PipelineRef` panics. -/
def PipelineRunToObjectRef (quote : String → String) (ctx : Context) (now : time.Time)
    (pipelineRun : PipelineRun) : Except Panic ObjectRefReturn :=
  match ParsePipelineRunStatus quote ctx now pipelineRun with
  | (_, some err) => .ok { pipelineRun := pipelineRun, objectRef := none, err := some err }
  | (status, none) =>
    let labels := PipelineRunGetLabels pipelineRun
    let labels := sanitizeLabels (gomap.keys labels) labels
    match pipelineRun.Spec.PipelineRef with
    | none => .error .nilPointerDereference
    | some pipelineRef =>
      .ok { pipelineRun := pipelineRun,
            objectRef := some
              ({ Name := pipelineRef.Name, Status := [status], Selector := some labels }),
            err := none }

/-- What the map variable `labels` of `PipelineRunToObjectRef` refers to.  A Go map value is
a reference: the variable either shares the label map of the run behind the pointer
argument, or refers to a map of its own. -/
inductive LabelsRef where
  | shared
  | own (labels : List (String × String))
deriving DecidableEq, Repr

/-- The memory the sanitizing loop of `PipelineRunToObjectRef` works on: the run behind the
pointer argument, and what the variable `labels` refers to. -/
structure LabelsState where
  pipelineRun : PipelineRun
  labels : LabelsRef
deriving DecidableEq, Repr

/-- The content of the map the variable `labels` refers to (a nil map reads as empty). -/
def LabelsState.read (s : LabelsState) : List (String × String) :=
  match s.labels with
  | .own m => m
  | .shared =>
    match s.pipelineRun.ObjectMeta.Labels with
    | none => []
    | some m => m

/-- Go `delete(labels, k)` in memory: it removes the key from the map the variable refers
to, which is the label map of the run when the two are shared (on a nil map it does
nothing). -/
def LabelsState.delete (s : LabelsState) (k : String) : LabelsState :=
  match s.labels with
  | .own m => { s with labels := .own (gomap.delete m k) }
  | .shared =>
    { s with
      pipelineRun :=
        { s.pipelineRun with
          ObjectMeta :=
            { s.pipelineRun.ObjectMeta with
              Labels := s.pipelineRun.ObjectMeta.Labels.map (fun m => gomap.delete m k) } } }

/-- The sanitizing loop of `PipelineRunToObjectRef` in memory: for each key visited, delete
it through the variable `labels` when it starts with `Prefix`. -/
def sanitizeLabelsState : List String → LabelsState → LabelsState
  | [], s => s
  | k :: rest, s =>
    if strings.HasPrefix k Prefix then sanitizeLabelsState rest (s.delete k)
    else sanitizeLabelsState rest s

/-- Modelled from the spec: `PipelineRunGetLabels` is not among the source files.  This is
the same helper as a map reference: by its copy-on-read semantics the mapping it returns is
a map of the caller's own, holding the label set of the run (empty if there is none). -/
def PipelineRunGetLabelsRef (pipelineRun : PipelineRun) : LabelsRef :=
  .own (PipelineRunGetLabels pipelineRun)

/-- A helper without copy-on-read, for comparison: it hands out the label map of the run
itself when there is one, and a new empty map otherwise. -/
def sharedLabelsRef (pipelineRun : PipelineRun) : LabelsRef :=
  match pipelineRun.ObjectMeta.Labels with
  | none => .own []
  | some _ => .shared

/-- Go `PipelineRunToObjectRef` with its memory effects: `getLabels` is the call
`PipelineRunGetLabels(pipelineRun)`, the loop deletes through the variable `labels`, and
the object returned next to the results is the run as the loop leaves it. -/
def PipelineRunToObjectRefIn (getLabels : PipelineRun → LabelsRef) (quote : String → String)
    (ctx : Context) (now : time.Time) (pipelineRun : PipelineRun) :
    Except Panic ObjectRefReturn :=
  match ParsePipelineRunStatus quote ctx now pipelineRun with
  | (_, some err) => .ok { pipelineRun := pipelineRun, objectRef := none, err := some err }
  | (status, none) =>
    let s0 : LabelsState := { pipelineRun := pipelineRun, labels := getLabels pipelineRun }
    let s1 := sanitizeLabelsState (gomap.keys s0.read) s0
    match s1.pipelineRun.Spec.PipelineRef with
    | none => .error .nilPointerDereference
    | some pipelineRef =>
      .ok { pipelineRun := s1.pipelineRun,
            objectRef := some
              ({ Name := pipelineRef.Name, Status := [status], Selector := some s1.read }),
            err := none }

/-- The stub `TektonPipelineRun(name)` carrying a user label and the label
`BuildRunsCreated`, as `TestAppendIssuedBuildRunsLabel` sets it. -/
def TektonPipelineRunLabeled (name : String) : PipelineRun :=
  { TektonPipelineRunSucceeded name with
    ObjectMeta :=
      { Namespace := "default", Name := name,
        Labels := some [("app", "web"), (BuildRunsCreated, "existing-buildrun")] } }

/-- The object `pipelineRunLabeled` of `TestAppendIssuedBuildRunsLabel`: the stub
`TektonPipelineRun("pipeline")` with the single label `BuildRunsCreated`. -/
def pipelineRunLabeled : PipelineRun :=
  { TektonPipelineRun "pipeline" with
    ObjectMeta :=
      { Namespace := "default", Name := "pipeline",
        Labels := some [(BuildRunsCreated, "existing-buildrun")] } }

/-- A `BuildRun` in namespace `default` owned, in this order, by a pod and by two Tekton
runs of API version `TektonAPIv1alpha1`. -/
def BuildRunOwnedByRuns (TektonAPIv1alpha1 : String) : v1alpha1.BuildRun :=
  { ObjectMeta :=
      { Namespace := "default", Name := "buildrun",
        OwnerReferences :=
          [{ APIVersion := "v1", Kind := "Pod", Name := "pod" },
           { APIVersion := TektonAPIv1alpha1, Kind := "Run", Name := "run-a" },
           { APIVersion := TektonAPIv1alpha1, Kind := "Run", Name := "run-b" }] } }

/-- A started run without `Spec.PipelineRef`. -/
def TektonPipelineRunWithoutRef (name : String) (start : time.Time) : PipelineRun :=
  { ObjectMeta := { Namespace := "default", Name := name },
    Status := { StartTime := some start } }

end filter

/-! ## Eligibility: `EventFilterPredicate` -/

namespace filter

open tknv1beta1

/-- The task scan answers true exactly when some declared task carries a task reference
whose API version is the Shipwright one. -/
theorem tasksReferenceShipwright_iff (sw : String) (tasks : List PipelineTask) :
    tasksReferenceShipwright sw tasks = true ↔
      ∃ task ∈ tasks, ∃ ref, task.TaskRef = some ref ∧ ref.APIVersion = sw := by
  induction tasks with
  | nil => simp [tasksReferenceShipwright]
  | cons task rest ih =>
    unfold tasksReferenceShipwright
    cases href : task.TaskRef with
    | none => simp [ih, href]
    | some ref =>
      by_cases hv : ref.APIVersion = sw
      · simp [href, hv]
      · simp [href, hv, ih]

/-- The task scan answers false exactly when every task reference present has another
API version. -/
theorem tasksReferenceShipwright_eq_false_iff (sw : String) (tasks : List PipelineTask) :
    tasksReferenceShipwright sw tasks = false ↔
      ∀ task ∈ tasks, ∀ ref, task.TaskRef = some ref → ref.APIVersion ≠ sw := by
  rw [← Bool.not_eq_true, tasksReferenceShipwright_iff]
  constructor
  · intro h task ht ref href hv
    exact h ⟨task, ht, ref, href, hv⟩
  · rintro h ⟨task, ht, ref, href, hv⟩
    exact h task ht ref href hv

/-- Unfolding of the predicate on a `PipelineRun`, as a conjunction of its four gates. -/
theorem EventFilterPredicate_pipelineRun (sw : String) (pr : PipelineRun) :
    EventFilterPredicate sw (.PipelineRun pr) = true ↔
      metav1.IsZero pr.ObjectMeta.DeletionTimestamp = true ∧
      pr.Spec.PipelineRef ≠ none ∧
      ∃ spec, pr.Status.PipelineSpec = some spec ∧
        ∀ task ∈ spec.Tasks, ∀ ref, task.TaskRef = some ref → ref.APIVersion ≠ sw := by
  unfold EventFilterPredicate pipelineRunReferencesShipwright
  cases hdel : metav1.IsZero pr.ObjectMeta.DeletionTimestamp <;>
    cases href : pr.Spec.PipelineRef <;>
    cases hspec : pr.Status.PipelineSpec <;>
    simp [hdel, href, hspec, tasksReferenceShipwright_eq_false_iff]

/-- Claim C1: a `PipelineRun` whose declared task list holds, at any position, a task with a
non-nil `TaskRef` of API version `constants.ShipwrightAPIVersion` is rejected by
`EventFilterPredicate`, whatever its other fields are. -/
theorem EventFilterPredicate_false_of_shipwright_task (sw : String) (pr : PipelineRun)
    (spec : PipelineSpec) (task : PipelineTask) (ref : TaskRef)
    (hspec : pr.Status.PipelineSpec = some spec) (htask : task ∈ spec.Tasks)
    (href : task.TaskRef = some ref) (hver : ref.APIVersion = sw) :
    EventFilterPredicate sw (.PipelineRun pr) = false := by
  rw [← Bool.not_eq_true, EventFilterPredicate_pipelineRun]
  rintro ⟨_, _, spec2, hspec2, hall⟩
  rw [hspec] at hspec2
  cases hspec2
  exact hall task htask ref href hver

/-- Evaluation of claim C1 on a run that is otherwise acceptable and whose second task,
after one without `TaskRef`, refers to Shipwright. -/
theorem EventFilterPredicate_false_of_shipwright_task_witness :
    EventFilterPredicate "shipwright.io/v1alpha1"
      (.PipelineRun (TektonPipelineRunCustomTask "shipwright.io/v1alpha1" "name")) = false :=
  EventFilterPredicate_false_of_shipwright_task "shipwright.io/v1alpha1"
    (TektonPipelineRunCustomTask "shipwright.io/v1alpha1" "name")
    { Tasks := [{ Name := "plain" }, TektonPipelineTaskRefToShipwright "shipwright.io/v1alpha1"] }
    (TektonPipelineTaskRefToShipwright "shipwright.io/v1alpha1")
    { APIVersion := "shipwright.io/v1alpha1", Name := "name" }
    rfl (by decide) rfl rfl

/-- Claim C2: `EventFilterPredicate` returns true exactly when the object is a
`PipelineRun`, its deletion timestamp is zero or absent, `Spec.PipelineRef` and
`Status.PipelineSpec` are non-nil, and no declared task has a non-nil `TaskRef` with the
Shipwright API version.  In particular a run marked for deletion is rejected, and a run
passing the first four conditions whose tasks all lack a `TaskRef` or refer to another API
version is accepted. -/
theorem EventFilterPredicate_true_iff (sw : String) (obj : Object) :
    (EventFilterPredicate sw obj = true ↔
      ∃ pr, obj = .PipelineRun pr ∧
        metav1.IsZero pr.ObjectMeta.DeletionTimestamp = true ∧
        pr.Spec.PipelineRef ≠ none ∧
        ∃ spec, pr.Status.PipelineSpec = some spec ∧
          ∀ task ∈ spec.Tasks, ∀ ref, task.TaskRef = some ref → ref.APIVersion ≠ sw) ∧
    (∀ pr, obj = .PipelineRun pr → metav1.IsZero pr.ObjectMeta.DeletionTimestamp = false →
      EventFilterPredicate sw obj = false) ∧
    (∀ pr spec, obj = .PipelineRun pr →
      metav1.IsZero pr.ObjectMeta.DeletionTimestamp = true → pr.Spec.PipelineRef ≠ none →
      pr.Status.PipelineSpec = some spec →
      (∀ task ∈ spec.Tasks, task.TaskRef = none ∨
        ∃ ref, task.TaskRef = some ref ∧ ref.APIVersion ≠ sw) →
      EventFilterPredicate sw obj = true) := by
  refine ⟨?_, ?_, ?_⟩
  · cases obj with
    | Other m => simp [EventFilterPredicate]
    | PipelineRun pr =>
      rw [EventFilterPredicate_pipelineRun]
      constructor
      · intro h
        exact ⟨pr, rfl, h⟩
      · rintro ⟨pr2, heq, h⟩
        cases heq
        exact h
  · intro pr hobj hdel
    subst hobj
    rw [← Bool.not_eq_true, EventFilterPredicate_pipelineRun]
    rintro ⟨h, _⟩
    rw [hdel] at h
    cases h
  · intro pr spec hobj hdel href hspec hall
    subst hobj
    rw [EventFilterPredicate_pipelineRun]
    refine ⟨hdel, href, spec, hspec, ?_⟩
    intro task ht ref hr
    rcases hall task ht with hnone | ⟨ref2, hr2, hne⟩
    · rw [hnone] at hr
      cases hr
    · rw [hr2] at hr
      cases hr
      exact hne

/-- Claim C3: a `PipelineRun` whose `Spec.PipelineRef` is nil is rejected by
`EventFilterPredicate`. -/
theorem EventFilterPredicate_false_of_nil_PipelineRef (sw : String) (pr : PipelineRun)
    (href : pr.Spec.PipelineRef = none) :
    EventFilterPredicate sw (.PipelineRun pr) = false := by
  rw [← Bool.not_eq_true, EventFilterPredicate_pipelineRun]
  rintro ⟨_, h, _⟩
  exact h href

/-- Evaluation of claim C3 on a run that only lacks the pipeline reference. -/
theorem EventFilterPredicate_false_of_nil_PipelineRef_witness :
    EventFilterPredicate "shipwright.io/v1alpha1"
      (.PipelineRun { Status := { PipelineSpec := some { Description := "testing" } } }) = false :=
  EventFilterPredicate_false_of_nil_PipelineRef "shipwright.io/v1alpha1"
    { Status := { PipelineSpec := some { Description := "testing" } } } rfl

end filter

/-! ## Status classification: `ParsePipelineRunStatus` -/

namespace filter

open tknv1beta1

/-- A declared `Spec.Timeout` is the timeout `PipelineTimeout` reports. -/
theorem PipelineTimeout_of_Timeout (pr : PipelineRun) (ctx : Context) (d : time.Duration)
    (h : pr.Spec.Timeout = some d) : pr.PipelineTimeout ctx = d := by
  simp [PipelineRun.PipelineTimeout, h]

/-- A run that has not started has not timed out either: `HasTimedOut` looks at the timeout
only behind a non-zero start time. -/
theorem HasTimedOut_false_of_not_started (pr : PipelineRun) (ctx : Context) (now : time.Time)
    (h : pr.HasStarted = false) : pr.HasTimedOut ctx now = false := by
  unfold PipelineRun.HasStarted at h
  unfold PipelineRun.HasTimedOut
  cases hs : pr.Status.StartTime with
  | none => simp [metav1.IsZero]
  | some t =>
    rw [hs] at h
    simp only [Bool.not_eq_eq_eq_not, Bool.not_false] at h
    simp [metav1.IsZero, h]

/-- With a non-zero start time `s` and a timeout other than "no timeout", `HasTimedOut`
compares the timeout with the run time `now.Sub(s)`. -/
theorem HasTimedOut_of_started (pr : PipelineRun) (ctx : Context) (now s : time.Time)
    (hs : pr.Status.StartTime = some s) (hz : s.IsZero = false)
    (hd : pr.PipelineTimeout ctx ≠ 0) :
    pr.HasTimedOut ctx now = decide (pr.PipelineTimeout ctx < now.Sub s) := by
  unfold PipelineRun.HasTimedOut
  simp [hs, metav1.IsZero, hz, NoTimeoutDuration, hd]

/-- A done run is classified by its Succeeded condition alone. -/
theorem ParsePipelineRunStatus_of_done (quote : String → String) (ctx : Context)
    (now : time.Time) (pr : PipelineRun) (hdone : pr.IsDone = true) :
    ParsePipelineRunStatus quote ctx now pr =
      (if apis.IsTrue (pr.Status.GetCondition apis.ConditionSucceeded) = true
        then PipelineRunReasonSuccessful else PipelineRunReasonFailed, none) := by
  unfold ParsePipelineRunStatus
  rw [if_pos hdone]
  split <;> rfl

/-- Claim C4, as the code has it: for every instant `now`, a run that is done and whose
Succeeded condition is true is classified, without error, as
`PipelineRunReasonSuccessful`, the string `Succeeded`. -/
theorem ParsePipelineRunStatus_done_succeeded (quote : String → String) (ctx : Context)
    (now : time.Time) (pr : PipelineRun) (hdone : pr.IsDone = true)
    (htrue : apis.IsTrue (pr.Status.GetCondition apis.ConditionSucceeded) = true) :
    ParsePipelineRunStatus quote ctx now pr = ("Succeeded", none) := by
  rw [ParsePipelineRunStatus_of_done quote ctx now pr hdone, if_pos htrue]
  rfl

/-- Evaluation of the amended claim C4 on the stub `TektonPipelineRunSucceeded`. -/
theorem ParsePipelineRunStatus_done_succeeded_witness :
    ParsePipelineRunStatus quotePlain {} { ns := 62500000000000000000 }
      (TektonPipelineRunSucceeded "name") = ("Succeeded", none) :=
  ParsePipelineRunStatus_done_succeeded quotePlain {} { ns := 62500000000000000000 }
    (TektonPipelineRunSucceeded "name") (by decide) (by decide)

/-- Claim C4 as written fails: the stub `TektonPipelineRunSucceeded` is done with a true
Succeeded condition, and its status string is not `Successful`. -/
theorem ParsePipelineRunStatus_done_succeeded_counterexample :
    (TektonPipelineRunSucceeded "name").IsDone = true ∧
    apis.IsTrue ((TektonPipelineRunSucceeded "name").Status.GetCondition
      apis.ConditionSucceeded) = true ∧
    ParsePipelineRunStatus quotePlain {} { ns := 62500000000000000000 }
      (TektonPipelineRunSucceeded "name") ≠ ("Successful", none) := by
  decide

/-- Claim C5: for every instant `now`, a run that is done and whose Succeeded condition is
not true is classified as `Failed`, without error. -/
theorem ParsePipelineRunStatus_done_failed (quote : String → String) (ctx : Context)
    (now : time.Time) (pr : PipelineRun) (hdone : pr.IsDone = true)
    (hfalse : apis.IsTrue (pr.Status.GetCondition apis.ConditionSucceeded) = false) :
    ParsePipelineRunStatus quote ctx now pr = ("Failed", none) := by
  rw [ParsePipelineRunStatus_of_done quote ctx now pr hdone, hfalse]
  rfl

/-- Evaluation of claim C5 on the stub `TektonPipelineRunFailed`. -/
theorem ParsePipelineRunStatus_done_failed_witness :
    ParsePipelineRunStatus quotePlain {} { ns := 62500000000000000000 }
      (TektonPipelineRunFailed "name") = ("Failed", none) :=
  ParsePipelineRunStatus_done_failed quotePlain {} { ns := 62500000000000000000 }
    (TektonPipelineRunFailed "name") (by decide) (by decide)

/-- Claim C6: the terminal outcome takes precedence.  A run that is done and also cancelled,
or done and past its timeout, is classified by the Succeeded condition alone, as the
successful or the failed status string without error, and never as `Cancelled`, `TimedOut`
or `Started`. -/
theorem ParsePipelineRunStatus_done_precedence (quote : String → String) (ctx : Context)
    (now : time.Time) (pr : PipelineRun) (hdone : pr.IsDone = true)
    (_hother : pr.IsCancelled = true ∨ pr.HasTimedOut ctx now = true) :
    ParsePipelineRunStatus quote ctx now pr =
      (if apis.IsTrue (pr.Status.GetCondition apis.ConditionSucceeded) = true
        then PipelineRunReasonSuccessful else PipelineRunReasonFailed, none) ∧
    (ParsePipelineRunStatus quote ctx now pr).1 ≠ "Cancelled" ∧
    (ParsePipelineRunStatus quote ctx now pr).1 ≠ "TimedOut" ∧
    (ParsePipelineRunStatus quote ctx now pr).1 ≠ "Started" := by
  rw [ParsePipelineRunStatus_of_done quote ctx now pr hdone]
  refine ⟨rfl, ?_, ?_, ?_⟩ <;> split <;> decide

/-- Evaluation of claim C6 on a run that is done and cancelled and on a run that is done
and past its timeout. -/
theorem ParsePipelineRunStatus_done_precedence_witness :
    ParsePipelineRunStatus quotePlain {} { ns := 62500000000000000000 }
      (TektonPipelineRunSucceededCanceled "name") = ("Succeeded", none) ∧
    ParsePipelineRunStatus quotePlain {} { ns := 62500000002000000000 }
      (TektonPipelineRunFailedTimedOut "name" { ns := 62500000000000000000 }) =
        ("Failed", none) :=
  ⟨(ParsePipelineRunStatus_done_precedence quotePlain {} { ns := 62500000000000000000 }
      (TektonPipelineRunSucceededCanceled "name") (by decide) (Or.inl (by decide))).1,
   (ParsePipelineRunStatus_done_precedence quotePlain {} { ns := 62500000002000000000 }
      (TektonPipelineRunFailedTimedOut "name" { ns := 62500000000000000000 })
      (by decide) (Or.inr (by decide))).1⟩

/-- Below the done and cancelled branches the classification depends on the timeout test
and the start time only. -/
theorem ParsePipelineRunStatus_of_not_done_not_cancelled (quote : String → String)
    (ctx : Context) (now : time.Time) (pr : PipelineRun) (hdone : pr.IsDone = false)
    (hcancel : pr.IsCancelled = false) :
    ParsePipelineRunStatus quote ctx now pr =
      if pr.HasTimedOut ctx now = true then ("TimedOut", none)
      else if pr.HasStarted = true then (PipelineRunReasonStarted, none)
      else ("", some (parseErrorMessage quote pr)) := by
  unfold ParsePipelineRunStatus
  simp [hdone, hcancel]

/-- Claim C7: for every instant `now`, a run that is not done and is cancelled is classified
as `Cancelled`, without error, whatever its start time and timeout are. -/
theorem ParsePipelineRunStatus_cancelled (quote : String → String) (ctx : Context)
    (now : time.Time) (pr : PipelineRun) (hdone : pr.IsDone = false)
    (hcancel : pr.IsCancelled = true) :
    ParsePipelineRunStatus quote ctx now pr = ("Cancelled", none) := by
  unfold ParsePipelineRunStatus
  simp [hdone, hcancel, PipelineRunReasonCancelled]

/-- Evaluation of claim C7 on the stub `TektonPipelineRunCanceled`, which has no start
time, and on a cancelled run that has exceeded its timeout. -/
theorem ParsePipelineRunStatus_cancelled_witness :
    ParsePipelineRunStatus quotePlain {} { ns := 62500000000000000000 }
      (TektonPipelineRunCanceled "name") = ("Cancelled", none) ∧
    (TektonPipelineRunCanceledTimedOut "name" { ns := 62500000000000000000 }).HasTimedOut {}
      { ns := 62500000002000000000 } = true ∧
    ParsePipelineRunStatus quotePlain {} { ns := 62500000002000000000 }
      (TektonPipelineRunCanceledTimedOut "name" { ns := 62500000000000000000 }) =
        ("Cancelled", none) :=
  ⟨ParsePipelineRunStatus_cancelled quotePlain {} { ns := 62500000000000000000 }
      (TektonPipelineRunCanceled "name") (by decide) (by decide),
   by decide,
   ParsePipelineRunStatus_cancelled quotePlain {} { ns := 62500000002000000000 }
      (TektonPipelineRunCanceledTimedOut "name" { ns := 62500000000000000000 })
      (by decide) (by decide)⟩

/-- Claim C8: a run that is neither done nor cancelled, has a (non-zero) start time `s` and a
non-zero timeout `d`, is classified as `TimedOut`, without error, at every instant `now`
whose distance `now.Sub(s)` from the start exceeds `d`.  The instant is the argument `now`;
no clock is read. -/
theorem ParsePipelineRunStatus_timedOut (quote : String → String) (ctx : Context)
    (now s : time.Time) (d : time.Duration) (pr : PipelineRun) (hdone : pr.IsDone = false)
    (hcancel : pr.IsCancelled = false) (hs : pr.Status.StartTime = some s)
    (hz : s.IsZero = false) (hd : pr.PipelineTimeout ctx = d) (hd0 : d ≠ 0)
    (hlate : d < now.Sub s) :
    ParsePipelineRunStatus quote ctx now pr = ("TimedOut", none) := by
  have ht : pr.HasTimedOut ctx now = true := by
    rw [HasTimedOut_of_started pr ctx now s hs hz (by rw [hd]; exact hd0), hd]
    exact decide_eq_true hlate
  rw [ParsePipelineRunStatus_of_not_done_not_cancelled quote ctx now pr hdone hcancel,
    if_pos ht]

/-- Evaluation of claim C8 on the stub `TektonPipelineRunTimedOut` (declared timeout of one
second), two seconds after its start. -/
theorem ParsePipelineRunStatus_timedOut_witness :
    ParsePipelineRunStatus quotePlain {} { ns := 62500000002000000000 }
      (TektonPipelineRunTimedOut "name" { ns := 62500000000000000000 }) = ("TimedOut", none) :=
  ParsePipelineRunStatus_timedOut quotePlain {} { ns := 62500000002000000000 }
    { ns := 62500000000000000000 } time.Second
    (TektonPipelineRunTimedOut "name" { ns := 62500000000000000000 })
    (by decide) (by decide) rfl (by decide)
    (PipelineTimeout_of_Timeout _ _ _ rfl) (by decide) (by decide)

/-- Claim C9: a run that is neither done nor cancelled, has a (non-zero) start time `s` and
has not exceeded its timeout `d` at `now` (`now.Sub(s) ≤ d`, the boundary included) is
classified as `Started`, without error. -/
theorem ParsePipelineRunStatus_started (quote : String → String) (ctx : Context)
    (now s : time.Time) (d : time.Duration) (pr : PipelineRun) (hdone : pr.IsDone = false)
    (hcancel : pr.IsCancelled = false) (hs : pr.Status.StartTime = some s)
    (hz : s.IsZero = false) (hd : pr.PipelineTimeout ctx = d) (hwithin : now.Sub s ≤ d) :
    ParsePipelineRunStatus quote ctx now pr = ("Started", none) := by
  have ht : pr.HasTimedOut ctx now = false := by
    unfold PipelineRun.HasTimedOut
    by_cases h0 : pr.PipelineTimeout ctx = NoTimeoutDuration
    · simp [h0]
    · simp [hs, metav1.IsZero, hz, h0, hd, not_lt.mpr hwithin]
  have hst : pr.HasStarted = true := by
    simp [PipelineRun.HasStarted, hs, hz]
  rw [ParsePipelineRunStatus_of_not_done_not_cancelled quote ctx now pr hdone hcancel]
  simp [ht, hst, PipelineRunReasonStarted]

/-- Evaluation of claim C9 on the stub `TektonPipelineRunTimedOut` exactly one second (its
timeout) after its start. -/
theorem ParsePipelineRunStatus_started_witness :
    ParsePipelineRunStatus quotePlain {} { ns := 62500000001000000000 }
      (TektonPipelineRunTimedOut "name" { ns := 62500000000000000000 }) = ("Started", none) :=
  ParsePipelineRunStatus_started quotePlain {} { ns := 62500000001000000000 }
    { ns := 62500000000000000000 } time.Second
    (TektonPipelineRunTimedOut "name" { ns := 62500000000000000000 })
    (by decide) (by decide) rfl (by decide)
    (PipelineTimeout_of_Timeout _ _ _ rfl) (by decide)

/-- Claim C10: `ParsePipelineRunStatus` returns an error exactly when the run is not done,
not cancelled and has no non-zero start time; the status is then the empty string and the
message quotes the namespaced name (namespace, slash, name).  A run without start time is
never classified as `TimedOut`, and a run that is done, cancelled or started is classified
without error. -/
theorem ParsePipelineRunStatus_error_iff (quote : String → String) (ctx : Context)
    (now : time.Time) (pr : PipelineRun) :
    ((ParsePipelineRunStatus quote ctx now pr).2 ≠ none ↔
      (pr.IsDone = false ∧ pr.IsCancelled = false ∧ pr.HasStarted = false)) ∧
    ((ParsePipelineRunStatus quote ctx now pr).2 ≠ none →
      ParsePipelineRunStatus quote ctx now pr =
        ("", some ("unable to parse pipelinerun " ++
          quote (pr.ObjectMeta.Namespace ++ "/" ++ pr.ObjectMeta.Name) ++
          " current status"))) ∧
    (pr.HasStarted = false → (ParsePipelineRunStatus quote ctx now pr).1 ≠ "TimedOut") ∧
    (pr.IsDone = true ∨ pr.IsCancelled = true ∨ pr.HasStarted = true →
      (ParsePipelineRunStatus quote ctx now pr).2 = none) := by
  have key : pr.HasStarted = false → pr.HasTimedOut ctx now = false :=
    HasTimedOut_false_of_not_started pr ctx now
  unfold ParsePipelineRunStatus
  cases hdone : pr.IsDone <;> cases hcancel : pr.IsCancelled <;>
    cases hst : pr.HasStarted <;> cases hto : pr.HasTimedOut ctx now <;>
    cases htrue : apis.IsTrue (pr.Status.GetCondition apis.ConditionSucceeded) <;>
    simp_all [parseErrorMessage, PipelineRun.GetNamespacedName, types.NamespacedName.String,
      PipelineRunReasonSuccessful, PipelineRunReasonFailed, PipelineRunReasonCancelled,
      PipelineRunReasonStarted]

end filter

/-! ## Translation: `PipelineRunToObjectRef` -/

namespace filter

open tknv1beta1

/-- After the sanitizing loop has visited the keys `ks`, the mapping holds the entries whose
key was not both visited and reserved. -/
theorem sanitizeLabels_eq_filter (ks : List String) (labels : List (String × String)) :
    sanitizeLabels ks labels =
      labels.filter (fun kv => !(decide (kv.1 ∈ ks) && strings.HasPrefix kv.1 Prefix)) := by
  induction ks generalizing labels with
  | nil => simp [sanitizeLabels]
  | cons k rest ih =>
    unfold sanitizeLabels
    by_cases hk : strings.HasPrefix k Prefix = true
    · rw [if_pos hk, ih, gomap.delete, List.filter_filter]
      apply List.filter_congr
      intro kv _
      by_cases hkv : kv.1 = k
      · simp [hkv, hk]
      · simp [hkv]
    · rw [if_neg hk, ih]
      apply List.filter_congr
      intro kv _
      by_cases hkv : kv.1 = k
      · have hk2 : strings.HasPrefix k Prefix = false := by simpa using hk
        simp [hkv, hk2]
      · simp [hkv]

/-- Ranging over the mapping's own keys, the loop leaves exactly the entries whose key does
not start with `Prefix`. -/
theorem sanitizeLabels_keys (labels : List (String × String)) :
    sanitizeLabels (gomap.keys labels) labels =
      labels.filter (fun kv => !strings.HasPrefix kv.1 Prefix) := by
  rw [sanitizeLabels_eq_filter]
  apply List.filter_congr
  intro kv hkv
  have hmem : kv.1 ∈ gomap.keys labels := List.mem_map_of_mem Prod.fst hkv
  simp [hmem]

/-- Reading a key from a mapping filtered by a condition on keys. -/
theorem gomap_get_filter (p : String → Bool) (m : List (String × String)) (k : String) :
    gomap.get (m.filter (fun kv => p kv.1)) k = if p k = true then gomap.get m k else none := by
  induction m with
  | nil => simp [gomap.get]
  | cons kv rest ih =>
    obtain ⟨k1, v⟩ := kv
    by_cases hp : p k1 = true
    · rw [List.filter_cons_of_pos (by simpa using hp)]
      by_cases hk : k1 = k
      · subst hk
        simp [gomap.get, hp]
      · simp [gomap.get, hk, ih]
    · rw [List.filter_cons_of_neg (by simpa using hp)]
      by_cases hk : k1 = k
      · subst hk
        simp [gomap.get, hp, ih]
      · simp [gomap.get, hk, ih]

/-- A write followed by a read of the same key gives the value written. -/
theorem gomap_get_set (m : List (String × String)) (k v : String) :
    gomap.get (gomap.set m k v) k = some v := by
  simp [gomap.set, gomap.get]

/-- When the classifier fails, the translator returns its error and no descriptor. -/
theorem PipelineRunToObjectRef_of_error (quote : String → String) (ctx : Context)
    (now : time.Time) (pr : PipelineRun) (st e : String)
    (h : ParsePipelineRunStatus quote ctx now pr = (st, some e)) :
    PipelineRunToObjectRef quote ctx now pr =
      .ok { pipelineRun := pr, objectRef := none, err := some e } := by
  unfold PipelineRunToObjectRef
  rw [h]

/-- When the classifier succeeds and the pipeline reference is present, the translator
returns the descriptor built from the status, the reference and the sanitized labels. -/
theorem PipelineRunToObjectRef_of_status (quote : String → String) (ctx : Context)
    (now : time.Time) (pr : PipelineRun) (st : String) (pref : PipelineRef)
    (h : ParsePipelineRunStatus quote ctx now pr = (st, none))
    (href : pr.Spec.PipelineRef = some pref) :
    PipelineRunToObjectRef quote ctx now pr =
      .ok { pipelineRun := pr,
            objectRef := some
              ({ Name := pref.Name, Status := [st],
                 Selector := some ((PipelineRunGetLabels pr).filter
                   (fun kv => !strings.HasPrefix kv.1 Prefix)) }),
            err := none } := by
  unfold PipelineRunToObjectRef
  rw [h]
  simp only [href, sanitizeLabels_keys]

/-- When the classifier succeeds and the pipeline reference is nil, the translator panics. -/
theorem PipelineRunToObjectRef_of_nil_ref (quote : String → String) (ctx : Context)
    (now : time.Time) (pr : PipelineRun) (st : String)
    (h : ParsePipelineRunStatus quote ctx now pr = (st, none))
    (href : pr.Spec.PipelineRef = none) :
    PipelineRunToObjectRef quote ctx now pr = .error .nilPointerDereference := by
  unfold PipelineRunToObjectRef
  rw [h]
  simp only [href]

/-- Whatever the translator returns, a selector it hands out is the sanitized label set of
the run. -/
theorem PipelineRunToObjectRef_selector (quote : String → String) (ctx : Context)
    (now : time.Time) (pr : PipelineRun) (r : ObjectRefReturn) (ref : v1alpha1.WhenObjectRef)
    (sel : List (String × String)) (h : PipelineRunToObjectRef quote ctx now pr = .ok r)
    (href : r.objectRef = some ref) (hsel : ref.Selector = some sel) :
    sel = (PipelineRunGetLabels pr).filter (fun kv => !strings.HasPrefix kv.1 Prefix) := by
  rcases hp : ParsePipelineRunStatus quote ctx now pr with ⟨st, _ | e⟩
  · cases hpr : pr.Spec.PipelineRef with
    | none =>
      rw [PipelineRunToObjectRef_of_nil_ref quote ctx now pr st hp hpr] at h
      cases h
    | some pref =>
      rw [PipelineRunToObjectRef_of_status quote ctx now pr st pref hp hpr] at h
      cases h
      cases href
      cases hsel
      rfl
  · rw [PipelineRunToObjectRef_of_error quote ctx now pr st e hp] at h
    cases h
    cases href

/-- Claim C11: for every `PipelineRun`, reserved labels included, a descriptor returned by
`PipelineRunToObjectRef` has no selector key that starts with `triggers.shipwright.io`. -/
theorem PipelineRunToObjectRef_selector_not_reserved (quote : String → String) (ctx : Context)
    (now : time.Time) (pr : PipelineRun) (r : ObjectRefReturn) (ref : v1alpha1.WhenObjectRef)
    (sel : List (String × String)) (h : PipelineRunToObjectRef quote ctx now pr = .ok r)
    (href : r.objectRef = some ref) (hsel : ref.Selector = some sel) :
    ∀ k ∈ gomap.keys sel, strings.HasPrefix k "triggers.shipwright.io" = false := by
  intro k hk
  rw [PipelineRunToObjectRef_selector quote ctx now pr r ref sel h href hsel] at hk
  simp only [gomap.keys, List.mem_map, List.mem_filter] at hk
  obtain ⟨kv, ⟨_, hkv⟩, rfl⟩ := hk
  simpa [Prefix] using hkv

/-- Evaluation of claim C11 on a run that carries the reserved label `BuildRunsCreated`
next to a user label. -/
theorem PipelineRunToObjectRef_selector_not_reserved_witness :
    strings.HasPrefix BuildRunsCreated "triggers.shipwright.io" = true ∧
    ∀ k ∈ gomap.keys [("app", "web")], strings.HasPrefix k "triggers.shipwright.io" = false :=
  ⟨by decide,
   PipelineRunToObjectRef_selector_not_reserved quotePlain {} { ns := 62500000000000000000 }
    (TektonPipelineRunLabeled "name")
    { pipelineRun := TektonPipelineRunLabeled "name",
      objectRef := some ({ Name := "name", Status := ["Succeeded"],
                           Selector := some [("app", "web")] }),
      err := none }
    { Name := "name", Status := ["Succeeded"], Selector := some [("app", "web")] }
    [("app", "web")] rfl rfl rfl⟩

/-- Claim C12: for a run with a non-nil `PipelineRef` on which `ParsePipelineRunStatus`
succeeds with status `st`, `PipelineRunToObjectRef` returns no error and a descriptor whose
`Name` is `Spec.PipelineRef.Name`, whose `Status` is the list of `st` alone and whose
`Selector` is the label set of the run restricted to the keys that do not start with
`triggers.shipwright.io`: such a key reads as in the run, any other key is absent. -/
theorem PipelineRunToObjectRef_descriptor (quote : String → String) (ctx : Context)
    (now : time.Time) (pr : PipelineRun) (st : String) (pref : PipelineRef)
    (href : pr.Spec.PipelineRef = some pref)
    (hst : ParsePipelineRunStatus quote ctx now pr = (st, none)) :
    ∃ sel,
      PipelineRunToObjectRef quote ctx now pr =
        .ok { pipelineRun := pr,
              objectRef := some ({ Name := pref.Name, Status := [st], Selector := some sel }),
              err := none } ∧
      sel = (PipelineRunGetLabels pr).filter
        (fun kv => !strings.HasPrefix kv.1 "triggers.shipwright.io") ∧
      ∀ k, gomap.get sel k =
        if strings.HasPrefix k "triggers.shipwright.io" = true then none
        else gomap.get (PipelineRunGetLabels pr) k := by
  refine ⟨_, PipelineRunToObjectRef_of_status quote ctx now pr st pref hst href, rfl, ?_⟩
  intro k
  rw [gomap_get_filter (fun k => !strings.HasPrefix k Prefix)]
  by_cases hk : strings.HasPrefix k Prefix = true
  · simp [hk, show strings.HasPrefix k "triggers.shipwright.io" = true from hk]
  · have hk2 : strings.HasPrefix k Prefix = false := by simpa using hk
    simp [hk2, show strings.HasPrefix k "triggers.shipwright.io" = false from hk2]

/-- Evaluation of claim C12 on a succeeded run with a user label and a reserved label. -/
theorem PipelineRunToObjectRef_descriptor_witness :
    ∃ sel,
      PipelineRunToObjectRef quotePlain {} { ns := 62500000000000000000 }
          (TektonPipelineRunLabeled "name") =
        .ok { pipelineRun := TektonPipelineRunLabeled "name",
              objectRef := some ({ Name := "name", Status := ["Succeeded"],
                                   Selector := some sel }),
              err := none } ∧
      sel = (PipelineRunGetLabels (TektonPipelineRunLabeled "name")).filter
        (fun kv => !strings.HasPrefix kv.1 "triggers.shipwright.io") ∧
      ∀ k, gomap.get sel k =
        if strings.HasPrefix k "triggers.shipwright.io" = true then none
        else gomap.get (PipelineRunGetLabels (TektonPipelineRunLabeled "name")) k :=
  PipelineRunToObjectRef_descriptor quotePlain {} { ns := 62500000000000000000 }
    (TektonPipelineRunLabeled "name") "Succeeded" { Name := "name" } rfl (by decide)

/-- Claim C13: when `ParsePipelineRunStatus` returns an error, `PipelineRunToObjectRef`
returns a nil descriptor together with that same error; and an error it returns is the
error of `ParsePipelineRunStatus`. -/
theorem PipelineRunToObjectRef_error_iff (quote : String → String) (ctx : Context)
    (now : time.Time) (pr : PipelineRun) :
    (∀ e, (ParsePipelineRunStatus quote ctx now pr).2 = some e →
      PipelineRunToObjectRef quote ctx now pr =
        .ok { pipelineRun := pr, objectRef := none, err := some e }) ∧
    (∀ r e, PipelineRunToObjectRef quote ctx now pr = .ok r → r.err = some e →
      (ParsePipelineRunStatus quote ctx now pr).2 = some e ∧ r.objectRef = none) := by
  rcases hp : ParsePipelineRunStatus quote ctx now pr with ⟨st, _ | e0⟩
  · refine ⟨fun e he => (nomatch he), ?_⟩
    intro r e h he
    cases hpr : pr.Spec.PipelineRef with
    | none =>
      rw [PipelineRunToObjectRef_of_nil_ref quote ctx now pr st hp hpr] at h
      cases h
    | some pref =>
      rw [PipelineRunToObjectRef_of_status quote ctx now pr st pref hp hpr] at h
      cases h
      cases he
  · have hr := PipelineRunToObjectRef_of_error quote ctx now pr st e0 hp
    refine ⟨?_, ?_⟩
    · intro e he
      cases he
      exact hr
    · intro r e h he
      rw [hr] at h
      cases h
      cases he
      exact ⟨rfl, rfl⟩

/-- Evaluation of claim C13 on the stub `TektonPipelineRun`, whose status is empty. -/
theorem PipelineRunToObjectRef_error_iff_witness :
    PipelineRunToObjectRef quotePlain {} { ns := 62500000000000000000 }
        (TektonPipelineRun "name") =
      .ok { pipelineRun := TektonPipelineRun "name", objectRef := none,
            err := some "unable to parse pipelinerun \"default/name\" current status" } :=
  (PipelineRunToObjectRef_error_iff quotePlain {} { ns := 62500000000000000000 }
    (TektonPipelineRun "name")).1 _ (by decide)

/-- While the variable `labels` refers to a map of its own, the sanitizing loop changes
that map only: the run stays as it is. -/
theorem sanitizeLabelsState_own (ks : List String) (pr : PipelineRun)
    (m : List (String × String)) :
    sanitizeLabelsState ks { pipelineRun := pr, labels := .own m } =
      { pipelineRun := pr, labels := .own (sanitizeLabels ks m) } := by
  induction ks generalizing m with
  | nil => rfl
  | cons k rest ih =>
    unfold sanitizeLabelsState sanitizeLabels
    by_cases hk : strings.HasPrefix k Prefix = true
    · rw [if_pos hk, if_pos hk]
      exact ih (gomap.delete m k)
    · rw [if_neg hk, if_neg hk]
      exact ih m

/-- While the variable `labels` shares the label map of the run, the sanitizing loop
removes the reserved keys it visits from the run itself. -/
theorem sanitizeLabelsState_shared (ks : List String) (pr : PipelineRun)
    (m : List (String × String)) (hm : pr.ObjectMeta.Labels = some m) :
    sanitizeLabelsState ks { pipelineRun := pr, labels := .shared } =
      { pipelineRun :=
          { pr with ObjectMeta := { pr.ObjectMeta with Labels := some (sanitizeLabels ks m) } },
        labels := .shared } := by
  induction ks generalizing pr m with
  | nil =>
    obtain ⟨⟨name, ns, labels, del, owners⟩, spec, status⟩ := pr
    cases hm
    rfl
  | cons k rest ih =>
    unfold sanitizeLabelsState sanitizeLabels
    by_cases hk : strings.HasPrefix k Prefix = true
    · rw [if_pos hk, if_pos hk]
      simp only [LabelsState.delete, hm, Option.map_some']
      exact ih _ (gomap.delete m k) rfl
    · rw [if_neg hk, if_neg hk]
      exact ih pr m hm

/-- With the copy-on-read helper, the translator with memory effects returns what
`PipelineRunToObjectRef` returns. -/
theorem PipelineRunToObjectRefIn_copy (quote : String → String) (ctx : Context)
    (now : time.Time) (pr : PipelineRun) :
    PipelineRunToObjectRefIn PipelineRunGetLabelsRef quote ctx now pr =
      PipelineRunToObjectRef quote ctx now pr := by
  unfold PipelineRunToObjectRefIn PipelineRunToObjectRef
  rcases ParsePipelineRunStatus quote ctx now pr with ⟨st, _ | e⟩
  · simp only [PipelineRunGetLabelsRef, LabelsState.read, sanitizeLabelsState_own]
  · rfl

/-- With a helper that hands out the label map of the run itself, the translator removes the
reserved label from the run: the frame property rests on copy-on-read. -/
theorem PipelineRunToObjectRefIn_shared_mutates :
    ∃ r, PipelineRunToObjectRefIn sharedLabelsRef quotePlain {} { ns := 62500000000000000000 }
        (TektonPipelineRunLabeled "name") = .ok r ∧
      r.pipelineRun ≠ TektonPipelineRunLabeled "name" ∧
      PipelineRunGetLabels r.pipelineRun = [("app", "web")] ∧
      gomap.get (PipelineRunGetLabels r.pipelineRun) BuildRunsCreated = none :=
  ⟨_, rfl, by decide, by decide, by decide⟩

/-- Claim C14: `PipelineRunToObjectRef` leaves its input as it was.  With the label mapping
obtained copy-on-read, whenever the call returns, the run after it, its label set included,
equals the run before it, also when reserved labels were removed from the returned
selector: every `delete` of the loop lands in the caller's own mapping. -/
theorem PipelineRunToObjectRef_frame (quote : String → String) (ctx : Context)
    (now : time.Time) (pr : PipelineRun) (r : ObjectRefReturn)
    (h : PipelineRunToObjectRefIn PipelineRunGetLabelsRef quote ctx now pr = .ok r) :
    r.pipelineRun = pr ∧ PipelineRunGetLabels r.pipelineRun = PipelineRunGetLabels pr := by
  have hrun : r.pipelineRun = pr := by
    unfold PipelineRunToObjectRefIn at h
    rcases hp : ParsePipelineRunStatus quote ctx now pr with ⟨st, _ | e⟩
    · rw [hp] at h
      simp only [PipelineRunGetLabelsRef, sanitizeLabelsState_own] at h
      cases hpr : pr.Spec.PipelineRef with
      | none =>
        rw [hpr] at h
        cases h
      | some pref =>
        rw [hpr] at h
        cases h
        rfl
    · rw [hp] at h
      cases h
      rfl
  exact ⟨hrun, by rw [hrun]⟩

/-- Evaluation of claim C14 on a run whose reserved label is dropped from the selector and
kept on the run. -/
theorem PipelineRunToObjectRef_frame_witness :
    ∃ r, PipelineRunToObjectRefIn PipelineRunGetLabelsRef quotePlain {}
        { ns := 62500000000000000000 } (TektonPipelineRunLabeled "name") = .ok r ∧
      (∃ ref, r.objectRef = some ref ∧ ref.Selector = some [("app", "web")]) ∧
      r.pipelineRun = TektonPipelineRunLabeled "name" ∧
      PipelineRunGetLabels r.pipelineRun =
        PipelineRunGetLabels (TektonPipelineRunLabeled "name") ∧
      gomap.get (PipelineRunGetLabels r.pipelineRun) BuildRunsCreated =
        some "existing-buildrun" :=
  ⟨{ pipelineRun := TektonPipelineRunLabeled "name",
     objectRef := some ({ Name := "name", Status := ["Succeeded"],
                          Selector := some [("app", "web")] }),
     err := none },
   rfl, ⟨_, rfl, rfl⟩,
   (PipelineRunToObjectRef_frame quotePlain {} { ns := 62500000000000000000 }
      (TektonPipelineRunLabeled "name") _ rfl).1,
   (PipelineRunToObjectRef_frame quotePlain {} { ns := 62500000000000000000 }
      (TektonPipelineRunLabeled "name") _ rfl).2,
   by decide⟩

/-! ## Bookkeeping: `AppendIssuedBuildRunsLabel` -/

/-- Joining with one more element at the end appends the separator and that element. -/
theorem intercalate_go_append (sep acc last : String) (elems : List String) :
    String.intercalate.go acc sep (elems ++ [last]) =
      String.intercalate.go acc sep elems ++ sep ++ last := by
  induction elems generalizing acc with
  | nil => simp [String.intercalate.go]
  | cons a rest ih => simp [String.intercalate.go, ih]

/-- Go `strings.Join` of a non-empty list followed by one more element. -/
theorem Join_append_singleton (elems : List String) (last sep : String) (h : elems ≠ []) :
    strings.Join (elems ++ [last]) sep = strings.Join elems sep ++ sep ++ last := by
  cases elems with
  | nil => exact absurd rfl h
  | cons a rest =>
    simp only [strings.Join, List.cons_append, String.intercalate]
    exact intercalate_go_append sep a last rest

/-- Claim C15: after `AppendIssuedBuildRunsLabel(run, ids)` with `ids` non-empty, the value
read back through `PipelineRunGetLabels` under `BuildRunsCreated` is present; it is the
comma-join of `ids` when the run had no value or an empty one under that key, and the
comma-join of `ids`, a comma and the previous value verbatim otherwise. -/
theorem AppendIssuedBuildRunsLabel_value (pr : PipelineRun) (ids : List String)
    (hids : ids ≠ []) :
    gomap.get (PipelineRunGetLabels (AppendIssuedBuildRunsLabel pr ids)) BuildRunsCreated =
      some
        (if (gomap.get (PipelineRunGetLabels pr) BuildRunsCreated).getD "" = ""
          then strings.Join ids ","
          else strings.Join ids "," ++ "," ++
            (gomap.get (PipelineRunGetLabels pr) BuildRunsCreated).getD "") := by
  unfold AppendIssuedBuildRunsLabel
  rw [if_neg hids]
  simp only [PipelineRunGetLabels, gomap_get_set]
  rw [Join_append_singleton ids _ "," hids]

/-- Evaluation of claim C15 on the two cases of `TestAppendIssuedBuildRunsLabel`: no label
gives `buildrun`, the label `existing-buildrun` gives `buildrun,existing-buildrun`. -/
theorem AppendIssuedBuildRunsLabel_value_witness :
    gomap.get (PipelineRunGetLabels (AppendIssuedBuildRunsLabel (TektonPipelineRun "pipeline")
      ["buildrun"])) BuildRunsCreated = some "buildrun" ∧
    gomap.get (PipelineRunGetLabels (AppendIssuedBuildRunsLabel pipelineRunLabeled
      ["buildrun"])) BuildRunsCreated = some "buildrun,existing-buildrun" :=
  ⟨AppendIssuedBuildRunsLabel_value (TektonPipelineRun "pipeline") ["buildrun"] (by decide),
   AppendIssuedBuildRunsLabel_value pipelineRunLabeled ["buildrun"] (by decide)⟩

/-! ## Faults, reserved keys, owner scan, monotonicity -/

/-- Claim C16 as written fails: on a started run whose `Spec.PipelineRef` is nil,
`PipelineRunToObjectRef` panics on the nil dereference instead of returning. -/
theorem PipelineRunToObjectRef_returns_counterexample :
    (TektonPipelineRunWithoutRef "name" { ns := 62500000000000000000 }).Spec.PipelineRef =
      none ∧
    PipelineRunToObjectRef quotePlain {} { ns := 62500000001000000000 }
        (TektonPipelineRunWithoutRef "name" { ns := 62500000000000000000 }) =
      .error .nilPointerDereference ∧
    ¬ ∃ r, PipelineRunToObjectRef quotePlain {} { ns := 62500000001000000000 }
        (TektonPipelineRunWithoutRef "name" { ns := 62500000000000000000 }) = .ok r := by
  refine ⟨rfl, rfl, ?_⟩
  rintro ⟨r, hr⟩
  have h : PipelineRunToObjectRef quotePlain {} { ns := 62500000001000000000 }
      (TektonPipelineRunWithoutRef "name" { ns := 62500000000000000000 }) =
      .error .nilPointerDereference := rfl
  rw [h] at hr
  cases hr

/-- Claim C16, as the code has it: for every instant and every `PipelineRun` value (nil
`Status.PipelineSpec` and nil labels included), `EventFilterPredicate` and
`ParsePipelineRunStatus` return normally, and `PipelineRunToObjectRef` returns normally
exactly when `Spec.PipelineRef` is non-nil or the classifier fails. -/
theorem PipelineRunToObjectRef_returns_iff (sw : String) (quote : String → String)
    (ctx : Context) (now : time.Time) (pr : PipelineRun) :
    (∃ b, EventFilterPredicate sw (.PipelineRun pr) = b) ∧
    (∃ st err, ParsePipelineRunStatus quote ctx now pr = (st, err)) ∧
    ((∃ r, PipelineRunToObjectRef quote ctx now pr = .ok r) ↔
      (pr.Spec.PipelineRef ≠ none ∨ (ParsePipelineRunStatus quote ctx now pr).2 ≠ none)) := by
  refine ⟨⟨_, rfl⟩, ⟨_, _, rfl⟩, ?_⟩
  rcases hp : ParsePipelineRunStatus quote ctx now pr with ⟨st, _ | e⟩
  · cases hpr : pr.Spec.PipelineRef with
    | none =>
      rw [PipelineRunToObjectRef_of_nil_ref quote ctx now pr st hp hpr]
      simp
    | some pref =>
      rw [PipelineRunToObjectRef_of_status quote ctx now pr st pref hp hpr]
      simp
  · rw [PipelineRunToObjectRef_of_error quote ctx now pr st e hp]
    simp

/-- Claim C17: each of the five reserved keys is `Prefix`, a slash and a suffix, with
`Prefix` the string `triggers.shipwright.io`; the five keys are pairwise distinct; and none
of them is a key of a selector returned by `PipelineRunToObjectRef`. -/
theorem reserved_keys (quote : String → String) (ctx : Context) (now : time.Time)
    (pr : PipelineRun) :
    Prefix = "triggers.shipwright.io" ∧
    OwnedByTektonRun = Prefix ++ "/" ++ "owned-by-run" ∧
    OwnedByTektonPipelineRun = Prefix ++ "/" ++ "owned-by-pipelinerun" ∧
    BuildRunsCreated = Prefix ++ "/" ++ "buildrun-names" ∧
    TektonPipelineRunName = Prefix ++ "/" ++ "pipelinerun-name" ∧
    TektonPipelineRunTriggeredBuilds = Prefix ++ "/" ++ "pipelinerun-triggered-builds" ∧
    [OwnedByTektonRun, OwnedByTektonPipelineRun, BuildRunsCreated, TektonPipelineRunName,
      TektonPipelineRunTriggeredBuilds].Nodup ∧
    ∀ r ref sel, PipelineRunToObjectRef quote ctx now pr = .ok r → r.objectRef = some ref →
      ref.Selector = some sel →
      ∀ k ∈ [OwnedByTektonRun, OwnedByTektonPipelineRun, BuildRunsCreated,
        TektonPipelineRunName, TektonPipelineRunTriggeredBuilds],
        k ∉ gomap.keys sel ∧ gomap.get sel k = none := by
  refine ⟨rfl, by decide, by decide, by decide, by decide, by decide, by decide, ?_⟩
  intro r ref sel h href hsel k hk
  have hpre : strings.HasPrefix k Prefix = true := by
    revert k
    decide
  rw [PipelineRunToObjectRef_selector quote ctx now pr r ref sel h href hsel]
  constructor
  · simp only [gomap.keys, List.mem_map, List.mem_filter]
    rintro ⟨kv, ⟨_, hkv⟩, rfl⟩
    rw [hpre] at hkv
    cases hkv
  · rw [gomap_get_filter (fun k => !strings.HasPrefix k Prefix)]
    simp [hpre]

/-- The owner scan returns the first owner reference, in list order, that is a Tekton
`Run`, with the namespace given. -/
theorem searchOwnerReferences_eq_find (tk ns : String) (owners : List metav1.OwnerReference) :
    searchOwnerReferences tk ns owners =
      (owners.find? (fun o => decide (o.APIVersion = tk ∧ o.Kind = "Run"))).map
        (fun o => { Namespace := ns, Name := o.Name }) := by
  induction owners with
  | nil => rfl
  | cons o rest ih =>
    unfold searchOwnerReferences
    by_cases h : o.APIVersion = tk ∧ o.Kind = "Run"
    · rw [if_pos h, List.find?_cons_of_pos _ (by simpa using h)]
      rfl
    · rw [if_neg h, List.find?_cons_of_neg _ (by simpa using h), ih]

/-- Claim C18: `searchBuildRunForRunOwner` returns nil exactly when no owner reference has
API version `constants.TektonAPIv1alpha1` and kind `Run`; otherwise it returns the
namespace of the `BuildRun` with the name of the first such owner reference in list order.
`filterBuildRunOwnedByRun` is true exactly for a `BuildRun` with such an owner, and false
for an object that is not a `BuildRun`. -/
theorem searchBuildRunForRunOwner_spec (tk : String) (br : v1alpha1.BuildRun)
    (obj : Interface) :
    (searchBuildRunForRunOwner tk br = none ↔
      ∀ o ∈ br.ObjectMeta.OwnerReferences, ¬ (o.APIVersion = tk ∧ o.Kind = "Run")) ∧
    (searchBuildRunForRunOwner tk br =
      (br.ObjectMeta.OwnerReferences.find?
        (fun o => decide (o.APIVersion = tk ∧ o.Kind = "Run"))).map
        (fun o => { Namespace := br.ObjectMeta.Namespace, Name := o.Name })) ∧
    (∀ before o after, br.ObjectMeta.OwnerReferences = before ++ o :: after →
      (∀ x ∈ before, ¬ (x.APIVersion = tk ∧ x.Kind = "Run")) →
      o.APIVersion = tk → o.Kind = "Run" →
      searchBuildRunForRunOwner tk br =
        some { Namespace := br.ObjectMeta.Namespace, Name := o.Name }) ∧
    (filterBuildRunOwnedByRun tk obj = true ↔
      ∃ b, obj = .BuildRun b ∧
        ∃ o ∈ b.ObjectMeta.OwnerReferences, o.APIVersion = tk ∧ o.Kind = "Run") ∧
    (∀ other, filterBuildRunOwnedByRun tk (.NotBuildRun other) = false) := by
  have hfind := searchOwnerReferences_eq_find tk br.ObjectMeta.Namespace
    br.ObjectMeta.OwnerReferences
  have hnone : ∀ b : v1alpha1.BuildRun, searchBuildRunForRunOwner tk b = none ↔
      ∀ o ∈ b.ObjectMeta.OwnerReferences, ¬ (o.APIVersion = tk ∧ o.Kind = "Run") := by
    intro b
    unfold searchBuildRunForRunOwner
    rw [searchOwnerReferences_eq_find]
    simp
  refine ⟨hnone br, hfind, ?_, ?_, fun _ => rfl⟩
  · intro before o after hsplit hbefore hv hkind
    unfold searchBuildRunForRunOwner
    rw [searchOwnerReferences_eq_find, hsplit, List.find?_append]
    have h1 : List.find? (fun o => decide (o.APIVersion = tk ∧ o.Kind = "Run")) before =
        none := by
      rw [List.find?_eq_none]
      intro x hx
      simpa using hbefore x hx
    rw [h1, List.find?_cons_of_pos _ (by simp [hv, hkind])]
    rfl
  · cases obj with
    | NotBuildRun other => simp [filterBuildRunOwnedByRun]
    | BuildRun b =>
      have hb := hnone b
      simp only [filterBuildRunOwnedByRun, Interface.BuildRun.injEq, exists_eq_left']
      rw [Option.isSome_iff_ne_none, Ne, hb]
      push_neg
      rfl

/-- Evaluation of claim C18 on a `BuildRun` whose second and third owners are Tekton runs:
the second one is returned. -/
theorem searchBuildRunForRunOwner_spec_witness :
    searchBuildRunForRunOwner "tekton.dev/v1alpha1" (BuildRunOwnedByRuns "tekton.dev/v1alpha1") =
      some { Namespace := "default", Name := "run-a" } :=
  (searchBuildRunForRunOwner_spec "tekton.dev/v1alpha1"
    (BuildRunOwnedByRuns "tekton.dev/v1alpha1")
    (.BuildRun (BuildRunOwnedByRuns "tekton.dev/v1alpha1"))).2.2.1
    [{ APIVersion := "v1", Kind := "Pod", Name := "pod" }]
    { APIVersion := "tekton.dev/v1alpha1", Kind := "Run", Name := "run-a" }
    [{ APIVersion := "tekton.dev/v1alpha1", Kind := "Run", Name := "run-b" }]
    rfl (by decide) rfl rfl

/-- An error of `ParsePipelineRunStatus` always carries the message built from the
namespaced name. -/
theorem ParsePipelineRunStatus_err_message (quote : String → String) (ctx : Context)
    (now : time.Time) (pr : PipelineRun) (e : String)
    (h : (ParsePipelineRunStatus quote ctx now pr).2 = some e) :
    e = parseErrorMessage quote pr := by
  unfold ParsePipelineRunStatus at h
  split_ifs at h
  exact (Option.some.inj h).symm

/-- Claim C19: a `PipelineRun` accepted by `EventFilterPredicate` never takes
`PipelineRunToObjectRef` to the nil dereference of `Spec.PipelineRef`: the call returns
either a descriptor and no error, or no descriptor and the classification error. -/
theorem PipelineRunToObjectRef_safe_of_eligible (sw : String) (quote : String → String)
    (ctx : Context) (now : time.Time) (pr : PipelineRun)
    (h : EventFilterPredicate sw (.PipelineRun pr) = true) :
    PipelineRunToObjectRef quote ctx now pr ≠ .error .nilPointerDereference ∧
    ∃ r, PipelineRunToObjectRef quote ctx now pr = .ok r ∧
      ((∃ ref, r.objectRef = some ref ∧ r.err = none) ∨
        (r.objectRef = none ∧ r.err = some (parseErrorMessage quote pr))) := by
  rw [EventFilterPredicate_pipelineRun] at h
  obtain ⟨_, href, _⟩ := h
  obtain ⟨pref, hpref⟩ := Option.ne_none_iff_exists'.mp href
  rcases hp : ParsePipelineRunStatus quote ctx now pr with ⟨st, _ | e⟩
  · rw [PipelineRunToObjectRef_of_status quote ctx now pr st pref hp hpref]
    exact ⟨fun hc => (nomatch hc), _, rfl, Or.inl ⟨_, rfl, rfl⟩⟩
  · rw [PipelineRunToObjectRef_of_error quote ctx now pr st e hp]
    refine ⟨fun hc => (nomatch hc), _, rfl, Or.inr ⟨rfl, ?_⟩⟩
    have he : (ParsePipelineRunStatus quote ctx now pr).2 = some e := by rw [hp]
    rw [ParsePipelineRunStatus_err_message quote ctx now pr e he]

/-- Evaluation of claim C19 on the stub `TektonPipelineRunRunning`, which the predicate
accepts. -/
theorem PipelineRunToObjectRef_safe_of_eligible_witness :
    PipelineRunToObjectRef quotePlain {} { ns := 62500000001000000000 }
        (TektonPipelineRunRunning "name" { ns := 62500000000000000000 }) ≠
      .error .nilPointerDereference ∧
    ∃ r, PipelineRunToObjectRef quotePlain {} { ns := 62500000001000000000 }
        (TektonPipelineRunRunning "name" { ns := 62500000000000000000 }) = .ok r ∧
      ((∃ ref, r.objectRef = some ref ∧ r.err = none) ∨
        (r.objectRef = none ∧ r.err = some (parseErrorMessage quotePlain
          (TektonPipelineRunRunning "name" { ns := 62500000000000000000 })))) :=
  PipelineRunToObjectRef_safe_of_eligible "shipwright.io/v1alpha1" quotePlain {}
    { ns := 62500000001000000000 }
    (TektonPipelineRunRunning "name" { ns := 62500000000000000000 }) (by decide)

/-- Saturating a difference at fixed bounds keeps the order of the minuends. -/
theorem saturate_mono (a b c hi lo : Int) (h : a ≤ b) (hb : lo ≤ hi) :
    (if hi < a - c then hi else if a - c < lo then lo else a - c) ≤
      (if hi < b - c then hi else if b - c < lo then lo else b - c) := by
  split_ifs <;> omega

/-- Go `Time.Sub` grows with its receiver. -/
theorem Time_Sub_mono (now later s : time.Time) (h : now.ns ≤ later.ns) :
    now.Sub s ≤ later.Sub s :=
  saturate_mono now.ns later.ns s.ns time.maxDuration time.minDuration h (by decide)

/-- A run that has timed out at one instant has timed out at every later instant. -/
theorem HasTimedOut_mono (pr : PipelineRun) (ctx : Context) (now later : time.Time)
    (h : now.ns ≤ later.ns) (ht : pr.HasTimedOut ctx now = true) :
    pr.HasTimedOut ctx later = true := by
  cases hst : pr.HasStarted with
  | false =>
    rw [HasTimedOut_false_of_not_started pr ctx now hst] at ht
    cases ht
  | true =>
    unfold PipelineRun.HasStarted at hst
    cases hs : pr.Status.StartTime with
    | none => simp [hs] at hst
    | some s =>
      rw [hs] at hst
      have hz : s.IsZero = false := by simpa using hst
      by_cases h0 : pr.PipelineTimeout ctx = 0
      · unfold PipelineRun.HasTimedOut at ht
        simp [h0, NoTimeoutDuration] at ht
      · rw [HasTimedOut_of_started pr ctx now s hs hz h0] at ht
        rw [HasTimedOut_of_started pr ctx later s hs hz h0]
        have hlt : pr.PipelineTimeout ctx < now.Sub s := of_decide_eq_true ht
        exact decide_eq_true (lt_of_lt_of_le hlt (Time_Sub_mono now later s h))

/-- Claim C20: classification is monotone in the instant.  For `now` not after `later`, a run
classified `TimedOut` at `now` is classified `TimedOut` at `later`; and for a run that is done
or cancelled the result is the same at all instants. -/
theorem ParsePipelineRunStatus_mono (quote : String → String) (ctx : Context)
    (now later : time.Time) (pr : PipelineRun) (hle : now.ns ≤ later.ns) :
    ((ParsePipelineRunStatus quote ctx now pr).1 = "TimedOut" →
      ParsePipelineRunStatus quote ctx later pr = ("TimedOut", none)) ∧
    (pr.IsDone = true ∨ pr.IsCancelled = true →
      ∀ t1 t2, ParsePipelineRunStatus quote ctx t1 pr = ParsePipelineRunStatus quote ctx t2 pr) := by
  constructor
  · intro h
    cases hdone : pr.IsDone with
    | true =>
      rw [ParsePipelineRunStatus_of_done quote ctx now pr hdone] at h
      split at h <;> simp [PipelineRunReasonSuccessful, PipelineRunReasonFailed] at h
    | false =>
      cases hcancel : pr.IsCancelled with
      | true =>
        unfold ParsePipelineRunStatus at h
        simp [hdone, hcancel, PipelineRunReasonCancelled] at h
      | false =>
        rw [ParsePipelineRunStatus_of_not_done_not_cancelled quote ctx now pr hdone hcancel]
          at h
        rw [ParsePipelineRunStatus_of_not_done_not_cancelled quote ctx later pr hdone hcancel]
        cases hto : pr.HasTimedOut ctx now with
        | true => rw [if_pos (HasTimedOut_mono pr ctx now later hle hto)]
        | false =>
          rw [hto] at h
          cases hst : pr.HasStarted <;> simp [hst, PipelineRunReasonStarted] at h
  · intro hdc t1 t2
    cases hdone : pr.IsDone with
    | true =>
      rw [ParsePipelineRunStatus_of_done quote ctx t1 pr hdone,
        ParsePipelineRunStatus_of_done quote ctx t2 pr hdone]
    | false =>
      have hcancel : pr.IsCancelled = true := by
        rcases hdc with hd | hc
        · rw [hdone] at hd
          cases hd
        · exact hc
      unfold ParsePipelineRunStatus
      simp [hdone, hcancel]

/-- Evaluation of claim C20 on the stub `TektonPipelineRunTimedOut`, two and three seconds
after its start. -/
theorem ParsePipelineRunStatus_mono_witness :
    (ParsePipelineRunStatus quotePlain {} { ns := 62500000002000000000 }
      (TektonPipelineRunTimedOut "name" { ns := 62500000000000000000 })).1 = "TimedOut" ∧
    ParsePipelineRunStatus quotePlain {} { ns := 62500000003000000000 }
      (TektonPipelineRunTimedOut "name" { ns := 62500000000000000000 }) = ("TimedOut", none) :=
  ⟨by decide,
   (ParsePipelineRunStatus_mono quotePlain {} { ns := 62500000002000000000 }
      { ns := 62500000003000000000 }
      (TektonPipelineRunTimedOut "name" { ns := 62500000000000000000 }) (by decide)).1
      (by decide)⟩

end filter
